import Mathlib

/-
Shallow embedding of the PMO Portfolio backend.

Python strings are modelled as lists of characters (PyStr).  The
definitions below translate, statement by statement, the query-shaping
code of src/backend/app.py and the cache service of
src/backend/cache_service.py (including its MD5-based key derivation).
-/

abbrev PyStr := List Char

/-- Python whitespace characters removed by the parameterless strip. -/
def isPySpace (c : Char) : Bool :=
  c == ' ' || c == '\t' || c == '\n' || c == '\x0d' || c == '\x0b' || c == '\x0c'

/-- Python ASCII uppercasing, as applied by upper() to the SQL templates
(the templates and filter clauses are ASCII text). -/
def upChar (c : Char) : Char :=
  if 97 ≤ c.toNat ∧ c.toNat ≤ 122 then Char.ofNat (c.toNat - 32) else c

def pyUpper (s : PyStr) : PyStr := s.map upChar

/-- Remove trailing characters satisfying f, as Python rstrip does. -/
def rstripBy (f : Char → Bool) (s : PyStr) : PyStr := (s.reverse.dropWhile f).reverse

/-- Python strip() with no argument. -/
def pyStrip (s : PyStr) : PyStr := rstripBy isPySpace (s.dropWhile isPySpace)

/-- Python rstrip applied with the single character argument ";". -/
def rstripSemi (s : PyStr) : PyStr := rstripBy (fun c => c == ';') s

/-- Does the pattern p occur at the very start of l?  Mirrors Python
startswith on character sequences. -/
def startsSeq : PyStr → PyStr → Bool
  | [], _ => true
  | _ :: _, [] => false
  | a :: p, b :: l => a == b && startsSeq p l

/-- Does the pattern p occur at the very end of l? -/
def endsSeq (p l : PyStr) : Bool := startsSeq p.reverse l.reverse

/-- Does the pattern p occur anywhere in l?  Mirrors the Python
substring test (p in l). -/
def hasSeq (p : PyStr) : PyStr → Bool
  | [] => startsSeq p []
  | c :: l => startsSeq p (c :: l) || hasSeq p l

/-- Number of positions of l at which the pattern p occurs. -/
def countSeq (p : PyStr) : PyStr → Nat
  | [] => if startsSeq p [] then 1 else 0
  | c :: l => (if startsSeq p (c :: l) then 1 else 0) + countSeq p l

theorem startsSeq_self (l : PyStr) : startsSeq l l = true := by
  induction l with
  | nil => rfl
  | cons c l ih => simp [startsSeq, ih]

theorem endsSeq_self (l : PyStr) : endsSeq l l = true := by
  simp [endsSeq, startsSeq_self]

theorem startsSeq_append_of_startsSeq {p a : PyStr} (b : PyStr)
    (h : startsSeq p a = true) : startsSeq p (a ++ b) = true := by
  induction p generalizing a with
  | nil => rfl
  | cons c p ih =>
    cases a with
    | nil => simp [startsSeq] at h
    | cons x a =>
      simp only [startsSeq, Bool.and_eq_true] at h
      simp only [List.cons_append, startsSeq, Bool.and_eq_true]
      exact ⟨h.1, ih h.2⟩

theorem startsSeq_append_cases {p a b : PyStr}
    (h : startsSeq p (a ++ b) = true) :
    startsSeq p a = true ∨
      ∃ rest, p = a ++ rest ∧ rest ≠ [] ∧ startsSeq rest b = true := by
  induction a generalizing p with
  | nil =>
    cases p with
    | nil => exact Or.inl rfl
    | cons c p => exact Or.inr ⟨c :: p, rfl, by simp, h⟩
  | cons x a ih =>
    cases p with
    | nil => exact Or.inl rfl
    | cons y p =>
      simp only [List.cons_append, startsSeq, Bool.and_eq_true] at h
      rcases ih h.2 with h1 | ⟨rest, hrest, hne, hb⟩
      · exact Or.inl (by simp [startsSeq, h.1, h1])
      · refine Or.inr ⟨rest, ?_, hne, hb⟩
        have : y = x := by simpa using h.1
        simp [this, hrest]

theorem startsSeq_length_le {p l : PyStr} (h : startsSeq p l = true) :
    p.length ≤ l.length := by
  induction p generalizing l with
  | nil => simp
  | cons c p ih =>
    cases l with
    | nil => simp [startsSeq] at h
    | cons x l =>
      simp only [startsSeq, Bool.and_eq_true] at h
      simpa using ih h.2

theorem startsSeq_append_of_le {p a : PyStr} (b : PyStr)
    (hle : p.length ≤ a.length) : startsSeq p (a ++ b) = startsSeq p a := by
  cases h : startsSeq p a with
  | true => exact startsSeq_append_of_startsSeq b h
  | false =>
    cases h2 : startsSeq p (a ++ b) with
    | false => rfl
    | true =>
      exfalso
      rcases startsSeq_append_cases h2 with h3 | ⟨rest, hrest, hne, _⟩
      · simp [h3] at h
      · have hlen : p.length = a.length + rest.length := by simp [hrest]
        have hr : rest.length = 0 := by omega
        exact hne (List.length_eq_zero.mp hr)

theorem hasSeq_of_startsSeq {p l : PyStr} (h : startsSeq p l = true) :
    hasSeq p l = true := by
  cases l with
  | nil => exact h
  | cons c l => simp [hasSeq, h]

theorem hasSeq_append_right {p : PyStr} (a : PyStr) {b : PyStr}
    (h : hasSeq p b = true) : hasSeq p (a ++ b) = true := by
  induction a with
  | nil => exact h
  | cons x a ih => simp [hasSeq, ih]

theorem hasSeq_nil_pat (l : PyStr) : hasSeq [] l = true := by
  cases l with
  | nil => rfl
  | cons c l => simp [hasSeq, startsSeq]

theorem hasSeq_append_left {p a : PyStr} (b : PyStr)
    (h : hasSeq p a = true) : hasSeq p (a ++ b) = true := by
  induction a with
  | nil =>
    have : p = [] := by
      cases p with
      | nil => rfl
      | cons c p => simp [hasSeq, startsSeq] at h
    simp [this, hasSeq_nil_pat]
  | cons x a ih =>
    simp only [hasSeq, Bool.or_eq_true] at h
    rcases h with h | h
    · have := startsSeq_append_of_startsSeq b h
      simp only [List.cons_append] at this ⊢
      simp [hasSeq, this]
    · simp only [List.cons_append, hasSeq, Bool.or_eq_true]
      exact Or.inr (ih h)

theorem endsSeq_cons {q a : PyStr} (x : Char) (h : endsSeq q a = true) :
    endsSeq q (x :: a) = true := by
  simp only [endsSeq, List.reverse_cons]
  exact startsSeq_append_of_startsSeq [x] h

/-- Any occurrence of p in a ++ b lies inside a, lies inside b, or
straddles the border: p splits at an index i with its first i characters
ending a and the rest starting b. -/
theorem hasSeq_append_split {p a b : PyStr}
    (h : hasSeq p (a ++ b) = true) :
    hasSeq p a = true ∨ hasSeq p b = true ∨
      ∃ i, 0 < i ∧ i < p.length ∧ endsSeq (p.take i) a = true ∧
        startsSeq (p.drop i) b = true := by
  induction a with
  | nil => exact Or.inr (Or.inl h)
  | cons x a ih =>
    simp only [List.cons_append, hasSeq, Bool.or_eq_true] at h
    rcases h with h | h
    · rcases startsSeq_append_cases (a := x :: a) (b := b) h with
        h1 | ⟨rest, hrest, hne, hb⟩
      · exact Or.inl (hasSeq_of_startsSeq h1)
      · refine Or.inr (Or.inr ⟨(x :: a).length, by simp, ?_, ?_, ?_⟩)
        · have hlen : p.length = (x :: a).length + rest.length := by
            simp [hrest]; omega
          have hr : rest.length ≠ 0 := fun hz => hne (List.length_eq_zero.mp hz)
          omega
        · have : p.take (x :: a).length = x :: a := by
            rw [hrest]; exact List.take_left _ _
          rw [this]; exact endsSeq_self _
        · have : p.drop (x :: a).length = rest := by
            rw [hrest]; exact List.drop_left _ _
          rw [this]; exact hb
    · rcases ih h with h1 | h1 | ⟨i, hi0, hil, he, hs⟩
      · exact Or.inl (by simp [hasSeq, h1])
      · exact Or.inr (Or.inl h1)
      · exact Or.inr (Or.inr ⟨i, hi0, hil, endsSeq_cons x he, hs⟩)

theorem countSeq_eq_zero {p l : PyStr} (h : hasSeq p l = false) :
    countSeq p l = 0 := by
  induction l with
  | nil => simp only [hasSeq] at h; simp [countSeq, h]
  | cons c l ih =>
    simp only [hasSeq, Bool.or_eq_false_iff] at h
    simp [countSeq, h.1, ih h.2]

/-- When no suffix of the (nonempty) pattern can begin b, occurrences of
the pattern in a ++ b are exactly those in a plus those in b. -/
theorem countSeq_append {p a b : PyStr} (hp : p ≠ [])
    (hns : ∀ i, 0 < i → i < p.length → startsSeq (p.drop i) b = false) :
    countSeq p (a ++ b) = countSeq p a + countSeq p b := by
  induction a with
  | nil =>
    have : startsSeq p [] = false := by
      cases p with
      | nil => exact absurd rfl hp
      | cons c q => rfl
    simp [countSeq, this]
  | cons x a ih =>
    have hsame : startsSeq p ((x :: a) ++ b) = startsSeq p (x :: a) := by
      cases h : startsSeq p (x :: a) with
      | true => exact startsSeq_append_of_startsSeq b h
      | false =>
        cases h2 : startsSeq p ((x :: a) ++ b) with
        | false => rfl
        | true =>
          exfalso
          rcases startsSeq_append_cases h2 with h3 | ⟨rest, hrest, hne, hb⟩
          · simp [h3] at h
          · have hdrop : p.drop (x :: a).length = rest := by
              rw [hrest]; exact List.drop_left _ _
            have hlen : p.length = (x :: a).length + rest.length := by
              simp [hrest]; omega
            have hr : rest.length ≠ 0 := fun hz => hne (List.length_eq_zero.mp hz)
            have hlt : (x :: a).length < p.length := by omega
            have hcontra := hns (x :: a).length (by simp) hlt
            rw [hdrop] at hcontra
            simp [hcontra] at hb
    have expand : countSeq p ((x :: a) ++ b)
        = (if startsSeq p ((x :: a) ++ b) = true then 1 else 0)
          + countSeq p (a ++ b) := rfl
    have expand2 : countSeq p (x :: a)
        = (if startsSeq p (x :: a) = true then 1 else 0) + countSeq p a := rfl
    rw [expand, expand2, hsame, ih]
    omega

theorem mem_of_startsSeq {p l : PyStr} {c : Char}
    (h : startsSeq p l = true) (hc : c ∈ p) : c ∈ l := by
  induction p generalizing l with
  | nil => simp at hc
  | cons d p ih =>
    cases l with
    | nil => simp [startsSeq] at h
    | cons x l =>
      simp only [startsSeq, Bool.and_eq_true] at h
      rcases List.mem_cons.mp hc with rfl | hc
      · have : c = x := by simpa using h.1
        simp [this]
      · exact List.mem_cons_of_mem _ (ih h.2 hc)

theorem mem_of_hasSeq {p l : PyStr} {c : Char}
    (h : hasSeq p l = true) (hc : c ∈ p) : c ∈ l := by
  induction l with
  | nil =>
    cases p with
    | nil => simp at hc
    | cons d p => simp [hasSeq, startsSeq] at h
  | cons x l ih =>
    simp only [hasSeq, Bool.or_eq_true] at h
    rcases h with h | h
    · exact mem_of_startsSeq h hc
    · exact List.mem_cons_of_mem _ (ih h)

/-- The decimal digit characters together with the minus sign: every
character produced by Python str() of an int is one of these. -/
def intChars : PyStr := ['-', '0', '1', '2', '3', '4', '5', '6', '7', '8', '9']

/-- Character for a single decimal digit. -/
def digitCh (n : Nat) : Char :=
  if n = 0 then '0' else if n = 1 then '1' else if n = 2 then '2'
  else if n = 3 then '3' else if n = 4 then '4' else if n = 5 then '5'
  else if n = 6 then '6' else if n = 7 then '7' else if n = 8 then '8' else '9'

/-- Digit-accumulation loop with an explicit fuel bound (n + 1 steps
always suffice since the argument shrinks by a factor of ten). -/
def natDigitsAux : Nat → Nat → PyStr
  | 0, _ => []
  | fuel + 1, n =>
    if n < 10 then [digitCh n]
    else natDigitsAux fuel (n / 10) ++ [digitCh (n % 10)]

/-- Decimal digits of a natural number, most significant first, as
produced by a Python f-string for a non-negative int. -/
def natDigits (n : Nat) : PyStr := natDigitsAux (n + 1) n

/-- Python str() of an int, as interpolated by an f-string. -/
def intStr (n : Int) : PyStr :=
  if n < 0 then '-' :: natDigits n.natAbs else natDigits n.toNat

theorem digitCh_mem (n : Nat) : digitCh n ∈ intChars := by
  unfold digitCh
  split
  · decide
  split
  · decide
  split
  · decide
  split
  · decide
  split
  · decide
  split
  · decide
  split
  · decide
  split
  · decide
  split
  · decide
  · decide

theorem mem_natDigitsAux {c : Char} (fuel n : Nat)
    (h : c ∈ natDigitsAux fuel n) : c ∈ intChars := by
  induction fuel generalizing n with
  | zero => simp [natDigitsAux] at h
  | succ fuel ih =>
    unfold natDigitsAux at h
    split at h
    · simp at h
      exact h ▸ digitCh_mem n
    · rcases List.mem_append.mp h with h1 | h1
      · exact ih _ h1
      · simp at h1
        exact h1 ▸ digitCh_mem (n % 10)

theorem mem_natDigits {c : Char} (n : Nat) (h : c ∈ natDigits n) :
    c ∈ intChars := mem_natDigitsAux _ _ h

theorem mem_intStr {c : Char} (n : Int) (h : c ∈ intStr n) : c ∈ intChars := by
  unfold intStr at h
  split at h
  · rcases List.mem_cons.mp h with rfl | h1
    · decide
    · exact mem_natDigits _ h1
  · exact mem_natDigits _ h

theorem natDigits_ne_nil (n : Nat) : natDigits n ≠ [] := by
  unfold natDigits natDigitsAux
  split
  · simp
  · simp

theorem intStr_ne_nil (n : Int) : intStr n ≠ [] := by
  unfold intStr
  split
  · simp
  · exact natDigits_ne_nil _

theorem upChar_of_mem_intChars {c : Char} (h : c ∈ intChars) :
    upChar c = c := by
  simp only [intChars, List.mem_cons, List.not_mem_nil, or_false] at h
  rcases h with rfl | rfl | rfl | rfl | rfl | rfl | rfl | rfl | rfl | rfl | rfl <;> decide

theorem mem_pyUpper_intStr {c : Char} (n : Int)
    (h : c ∈ pyUpper (intStr n)) : c ∈ intChars := by
  rcases List.mem_map.mp h with ⟨d, hd, hdc⟩
  have hmem := mem_intStr n hd
  rw [← hdc, upChar_of_mem_intChars hmem]
  exact hmem

/-- The first character of an uppercased int string is a digit or the
minus sign: exhibiting the cons shape used by the border analyses. -/
theorem pyUpper_intStr_cons (n : Int) :
    ∃ d l, pyUpper (intStr n) = d :: l ∧ d ∈ intChars := by
  cases hi : intStr n with
  | nil => exact absurd hi (intStr_ne_nil n)
  | cons e tl =>
    refine ⟨upChar e, tl.map upChar, by simp [pyUpper, hi], ?_⟩
    have he : e ∈ intChars := mem_intStr n (by simp [hi])
    rw [upChar_of_mem_intChars he]
    exact he

theorem intStr_cons (n : Int) :
    ∃ d l, intStr n = d :: l ∧ d ∈ intChars := by
  cases hi : intStr n with
  | nil => exact absurd hi (intStr_ne_nil n)
  | cons e tl =>
    exact ⟨e, tl, rfl, mem_intStr n (by simp [hi])⟩

/-- A nonempty pattern headed by a character other than a digit or the
minus sign never starts a sequence headed by an int string. -/
theorem startsSeq_intStr_head_false {q : PyStr} {c : Char} {n : Int}
    (hq : q = c :: q.tail) (hc : c ∉ intChars) (X : PyStr) :
    startsSeq q (intStr n ++ X) = false := by
  rcases intStr_cons n with ⟨d, l, hdl, hd⟩
  rw [hq, hdl]
  simp only [List.cons_append, startsSeq]
  cases hcd : c == d with
  | false => simp
  | true =>
    have : c = d := by simpa using hcd
    exact absurd (this ▸ hd) hc

theorem startsSeq_pyUpper_intStr_head_false {q : PyStr} {c : Char} {n : Int}
    (hq : q = c :: q.tail) (hc : c ∉ intChars) (X : PyStr) :
    startsSeq q (pyUpper (intStr n) ++ X) = false := by
  rcases pyUpper_intStr_cons n with ⟨d, l, hdl, hd⟩
  rw [hq, hdl]
  simp only [List.cons_append, startsSeq]
  cases hcd : c == d with
  | false => simp
  | true =>
    have : c = d := by simpa using hcd
    exact absurd (this ▸ hd) hc

/-- Strip only removes an outer layer: the stripped text sits inside the
original, so any substring of the stripped text is one of the original. -/
theorem hasSeq_of_hasSeq_dropWhile {p s : PyStr} (f : Char → Bool)
    (h : hasSeq p (s.dropWhile f) = true) : hasSeq p s = true := by
  have := List.takeWhile_append_dropWhile (p := f) (l := s)
  rw [← this]
  exact hasSeq_append_right _ h

theorem hasSeq_of_hasSeq_rstripBy {p s : PyStr} (f : Char → Bool)
    (h : hasSeq p (rstripBy f s) = true) : hasSeq p s = true := by
  have hdecomp : s = rstripBy f s ++ (s.reverse.takeWhile f).reverse := by
    have h1 := List.takeWhile_append_dropWhile (p := f) (l := s.reverse)
    have h2 : s.reverse.reverse
        = (s.reverse.takeWhile f ++ s.reverse.dropWhile f).reverse := by
      rw [h1]
    rw [List.reverse_reverse, List.reverse_append] at h2
    exact h2
  rw [hdecomp]
  exact hasSeq_append_left _ h

theorem hasSeq_of_hasSeq_pyStrip {p s : PyStr}
    (h : hasSeq p (pyStrip s) = true) : hasSeq p s = true :=
  hasSeq_of_hasSeq_dropWhile _ (hasSeq_of_hasSeq_rstripBy _ h)

theorem hasSeq_of_hasSeq_rstripSemi {p s : PyStr}
    (h : hasSeq p (rstripSemi s) = true) : hasSeq p s = true :=
  hasSeq_of_hasSeq_rstripBy _ h

/-- Decomposition form of stripping: the original text is a prefix
layer, the stripped core, and a suffix layer. -/
theorem pyStrip_decomp (s : PyStr) :
    ∃ x z, s = x ++ (pyStrip s ++ z) := by
  refine ⟨s.takeWhile isPySpace,
    ((s.dropWhile isPySpace).reverse.takeWhile isPySpace).reverse, ?_⟩
  have h1 : s.dropWhile isPySpace
      = pyStrip s ++ ((s.dropWhile isPySpace).reverse.takeWhile isPySpace).reverse := by
    have ha := List.takeWhile_append_dropWhile (p := isPySpace)
      (l := (s.dropWhile isPySpace).reverse)
    have hb : (s.dropWhile isPySpace).reverse.reverse
        = ((s.dropWhile isPySpace).reverse.takeWhile isPySpace
            ++ (s.dropWhile isPySpace).reverse.dropWhile isPySpace).reverse := by
      rw [ha]
    rw [List.reverse_reverse, List.reverse_append] at hb
    exact hb
  conv_lhs => rw [← List.takeWhile_append_dropWhile (p := isPySpace) (l := s)]
  exact congrArg (fun t => s.takeWhile isPySpace ++ t) h1

theorem rstripSemi_decomp (s : PyStr) :
    ∃ z, s = rstripSemi s ++ z := by
  refine ⟨(s.reverse.takeWhile (fun c => c == ';')).reverse, ?_⟩
  have ha := List.takeWhile_append_dropWhile (p := fun c => c == ';')
    (l := s.reverse)
  have hb : s.reverse.reverse
      = (s.reverse.takeWhile (fun c => c == ';')
          ++ s.reverse.dropWhile (fun c => c == ';')).reverse := by
    rw [ha]
  rw [List.reverse_reverse, List.reverse_append] at hb
  exact hb

/-
Query shaping, translated from src/backend/app.py.  Each endpoint reads
a SQL template from disk, appends a level filter and pagination, and
executes it through databricks_client.execute_query; the warehouse
responses are modelled as inputs (hierRows, invRows) and each
execute_query call counts as one warehouse call.
-/

/-- Fixed structural filter of the Portfolio level (app.py line 102). -/
def portfolioWhere : PyStr :=
  (" WHERE COE_ROADMAP_TYPE = \x27Portfolio\x27").toList

/-- Filter appended at the Program level (app.py line 171). -/
def programWhere : PyStr :=
  (" WHERE COE_ROADMAP_PARENT_ID = %(portfolio_id)s AND COE_ROADMAP_TYPE = \x27Program\x27").toList

/-- Filter introduced at the SubProgram level when the template has no
WHERE (app.py line 261). -/
def subprogramWhere : PyStr :=
  (" WHERE COE_ROADMAP_PARENT_ID = %(program_id)s AND COE_ROADMAP_TYPE = \x27SubProgram\x27").toList

/-- Filter appended at the SubProgram level when the template already
has a WHERE (app.py line 263). -/
def subprogramAnd : PyStr :=
  (" AND COE_ROADMAP_PARENT_ID = %(program_id)s AND COE_ROADMAP_TYPE = \x27SubProgram\x27").toList

def subprogramInvWhere : PyStr :=
  (" WHERE INV_EXT_ID LIKE CONCAT(%(program_id)s, \x27%\x27)").toList

def subprogramInvAnd : PyStr :=
  (" AND INV_EXT_ID LIKE CONCAT(%(program_id)s, \x27%\x27)").toList

def regionWhere : PyStr := (" WHERE REGION = %(region)s").toList

def regionAnd : PyStr := (" AND REGION = %(region)s").toList

def childIdCol : PyStr := ("CHILD_ID").toList

def invExtIdCol : PyStr := ("INV_EXT_ID").toList

/-- The appended f-string " ORDER BY {col} LIMIT {limit} OFFSET {offset}"
with offset = (page - 1) * limit, as in app.py lines 105-106, 174-175,
271-273 and 361-363. -/
def addPagination (orderCol q : PyStr) (page limit : Int) : PyStr :=
  let offset := (page - 1) * limit
  q ++ ((" ORDER BY ").toList
    ++ (orderCol
    ++ ((" LIMIT ").toList
    ++ (intStr limit
    ++ ((" OFFSET ").toList ++ intStr offset)))))

/-- Shaped Portfolio hierarchy statement (app.py lines 97-106). -/
def portfolio_hierarchy_query (template : PyStr) (page limit : Int) : PyStr :=
  addPagination childIdCol (rstripSemi (pyStrip template) ++ portfolioWhere)
    page limit

/-- Shaped Program hierarchy statement (app.py lines 167-175): the
WHERE filter is appended unconditionally. -/
def program_hierarchy_query (template : PyStr) (page limit : Int) : PyStr :=
  addPagination childIdCol (rstripSemi (pyStrip template) ++ programWhere)
    page limit

/-- The WHERE token checked case-insensitively by app.py lines 260 and
265 ("WHERE" not in query.upper()). -/
def whToken : PyStr := ("WHERE").toList

/-- Shaped SubProgram hierarchy statement (app.py lines 253-272): the
raw template (no strip) gets WHERE or AND depending on the check. -/
def subprogram_hierarchy_query (template : PyStr) (page limit : Int) : PyStr :=
  let q := if hasSeq whToken (pyUpper template) then template ++ subprogramAnd
    else template ++ subprogramWhere
  addPagination childIdCol q page limit

/-- Shaped SubProgram investment statement (app.py lines 265-273). -/
def subprogram_investment_query (template : PyStr) (page limit : Int) : PyStr :=
  let q := if hasSeq whToken (pyUpper template) then template ++ subprogramInvAnd
    else template ++ subprogramInvWhere
  addPagination invExtIdCol q page limit

/-- Shaped Region hierarchy statement (app.py lines 343-362). -/
def region_hierarchy_query (template : PyStr) (page limit : Int) : PyStr :=
  let q := if hasSeq whToken (pyUpper template) then template ++ regionAnd
    else template ++ regionWhere
  addPagination childIdCol q page limit

/-- Shaped Region investment statement (app.py lines 346-363). -/
def region_investment_query (template : PyStr) (page limit : Int) : PyStr :=
  let q := if hasSeq whToken (pyUpper template) then template ++ regionAnd
    else template ++ regionWhere
  addPagination invExtIdCol q page limit

def joinSep (sep : PyStr) : List PyStr → PyStr
  | [] => []
  | [x] => x
  | x :: xs => x ++ (sep ++ joinSep sep xs)

/-- The Program investment IN-placeholders "%(id0)s, %(id1)s, ..."
(app.py line 190). -/
def id_placeholders (n : Nat) : PyStr :=
  joinSep ((", ").toList)
    ((List.range n).map (fun i => ("%(id").toList ++ (natDigits i ++ (")s").toList)))

/-- Shaped Program investment statement (app.py lines 186-193). -/
def program_investment_query (template : PyStr) (n : Nat) : PyStr :=
  rstripSemi (pyStrip template)
    ++ ((" WHERE INV_EXT_ID IN (").toList ++ (id_placeholders n ++ (")").toList))

/-- A hierarchy row: the resolver reads only its CHILD_ID column
(app.py line 182); the remaining columns are opaque. -/
structure HRow where
  CHILD_ID : PyStr

/-- An investment row, opaque to the resolver. -/
structure IRow where
  INV_EXT_ID : PyStr

/-- The pagination envelope built in every endpoint response
(app.py lines 128-134, 201-207, 284-290, 374-380). -/
structure Pagination where
  page : Int
  limit : Int
  total_items : Nat
  has_more : Bool

def mkPagination (page limit : Int) (rows : List HRow) : Pagination :=
  { page := page, limit := limit, total_items := rows.length,
    has_more := ((rows.length : Int) == limit) }

/-- One endpoint execution: the shaped statements, the bound parameter
mappings passed alongside them, the assembled response, and the number
of warehouse calls issued. -/
structure EndpointRun where
  hierarchySQL : PyStr
  hierarchyParams : List (PyStr × PyStr)
  investmentSQL : Option PyStr
  investmentParams : List (PyStr × PyStr)
  hierarchy : List HRow
  investment : List IRow
  pagination : Pagination
  warehouseCalls : Nat

/-- GET /api/data/portfolio (app.py get_portfolio_data, lines 88-139):
if the hierarchy result is truthy, the full unfiltered investment query
runs; otherwise the investment part stays empty. -/
def run_portfolio (tH tI : PyStr) (page limit : Int)
    (hierRows : List HRow) (invRows : List IRow) : EndpointRun :=
  let hierarchy_query := portfolio_hierarchy_query tH page limit
  if hierRows.isEmpty then
    { hierarchySQL := hierarchy_query, hierarchyParams := [],
      investmentSQL := none, investmentParams := [],
      hierarchy := hierRows, investment := [],
      pagination := mkPagination page limit hierRows, warehouseCalls := 1 }
  else
    { hierarchySQL := hierarchy_query, hierarchyParams := [],
      investmentSQL := some (rstripSemi (pyStrip tI)), investmentParams := [],
      hierarchy := hierRows, investment := invRows,
      pagination := mkPagination page limit hierRows, warehouseCalls := 2 }

/-- GET /api/data/program (app.py get_program_data, lines 150-212): the
portfolio identifier flows only into the bound-parameter mapping; the
investment query runs only when program_ids is truthy. -/
def run_program (tH tI portfolio_id : PyStr) (page limit : Int)
    (hierRows : List HRow) (invRows : List IRow) : EndpointRun :=
  let hierarchy_query := program_hierarchy_query tH page limit
  let params := [(("portfolio_id").toList, portfolio_id)]
  let program_ids := hierRows.map (fun r => r.CHILD_ID)
  if program_ids.isEmpty then
    { hierarchySQL := hierarchy_query, hierarchyParams := params,
      investmentSQL := none, investmentParams := [],
      hierarchy := hierRows, investment := [],
      pagination := mkPagination page limit hierRows, warehouseCalls := 1 }
  else
    { hierarchySQL := hierarchy_query, hierarchyParams := params,
      investmentSQL := some (program_investment_query tI program_ids.length),
      investmentParams :=
        program_ids.enum.map (fun p => (("id").toList ++ natDigits p.1, p.2)),
      hierarchy := hierRows, investment := invRows,
      pagination := mkPagination page limit hierRows, warehouseCalls := 2 }

/-- GET /api/data/subprogram (app.py get_subprogram_data, lines 223-302,
cache-miss path): both queries execute unconditionally. -/
def run_subprogram (tH tI program_id : PyStr) (page limit : Int)
    (hierRows : List HRow) (invRows : List IRow) : EndpointRun :=
  let params := [(("program_id").toList, program_id)]
  { hierarchySQL := subprogram_hierarchy_query tH page limit,
    hierarchyParams := params,
    investmentSQL := some (subprogram_investment_query tI page limit),
    investmentParams := params,
    hierarchy := hierRows, investment := invRows,
    pagination := mkPagination page limit hierRows, warehouseCalls := 2 }

/-- GET /api/data/region (app.py get_region_data, lines 313-392,
cache-miss path): both queries execute unconditionally. -/
def run_region (tH tI region : PyStr) (page limit : Int)
    (hierRows : List HRow) (invRows : List IRow) : EndpointRun :=
  let params := [(("region").toList, region)]
  { hierarchySQL := region_hierarchy_query tH page limit,
    hierarchyParams := params,
    investmentSQL := some (region_investment_query tI page limit),
    investmentParams := params,
    hierarchy := hierRows, investment := invRows,
    pagination := mkPagination page limit hierRows, warehouseCalls := 2 }

/-- The legacy endpoint page size (app.py line 416): the only place a
requested size is capped at 50. -/
def legacy_page_size (requested : Int) : Int := min requested 50

/-
Cache service, translated from src/backend/cache_service.py.

Cached payloads are modelled by the Value type below (the JSON-like data
the endpoints cache).  The Redis tier stores json.dumps of the payload
and tests that string for truthiness on lookup; the disk tier stores
the payload itself and tests it for truthiness.  Backend failures
(unreachable Redis, serialization errors) are modelled by injected
failure flags; a raised-and-caught exception is an Except.error of the
inner step, and the public methods return Except values so that "no
exception escapes" is the statement that they always return ok.
Time-to-live bookkeeping is delegated to the backends by the source
(setex / diskcache expire) and is not part of this model.
-/

/-- JSON-serializable Python value as cached by the service. -/
inductive Value where
  | null : Value
  | vbool : Bool → Value
  | vint : Int → Value
  | vstr : PyStr → Value
  | vlist : List Value → Value
  | vdict : List (PyStr × Value) → Value

/-- Python truthiness of a cached payload, as tested by "if cached:". -/
def truthy : Value → Bool
  | .null => false
  | .vbool b => b
  | .vint n => n != 0
  | .vstr s => !s.isEmpty
  | .vlist l => !l.isEmpty
  | .vdict d => !d.isEmpty

mutual

/-- Python json.dumps of a Value (keys and strings without escaping,
matching the ASCII payloads cached by the endpoints). -/
def jsonDumps : Value → PyStr
  | .null => ("null").toList
  | .vbool true => ("true").toList
  | .vbool false => ("false").toList
  | .vint n => intStr n
  | .vstr s => '"' :: (s ++ ['"'])
  | .vlist l => '[' :: (jsonDumpsList l ++ [']'])
  | .vdict d => '\x7b' :: (jsonDumpsPairs d ++ ['\x7d'])

def jsonDumpsList : List Value → PyStr
  | [] => []
  | [v] => jsonDumps v
  | v :: vs => jsonDumps v ++ ((", ").toList ++ jsonDumpsList vs)

def jsonDumpsPairs : List (PyStr × Value) → PyStr
  | [] => []
  | [kv] => ('"' :: (kv.1 ++ ('"' :: ((": ").toList ++ jsonDumps kv.2))))
  | kv :: kvs =>
    ('"' :: (kv.1 ++ ('"' :: ((": ").toList ++ jsonDumps kv.2))))
      ++ ((", ").toList ++ jsonDumpsPairs kvs)

end

/-- Serialized payloads are never empty strings, so the fast tier's
truthiness test on the stored string always passes on a hit. -/
theorem jsonDumps_ne_nil (v : Value) : jsonDumps v ≠ [] := by
  cases v with
  | null => simp [jsonDumps]
  | vbool b => cases b <;> simp [jsonDumps]
  | vint n => exact intStr_ne_nil n
  | vstr s => simp [jsonDumps]
  | vlist l => simp [jsonDumps]
  | vdict d => simp [jsonDumps]

/-- First-match association lookup, as a Python dict keyed by cache key. -/
def assocFind (l : List (PyStr × Value)) (k : PyStr) : Option Value :=
  match l with
  | [] => none
  | kv :: rest => if kv.1 = k then some kv.2 else assocFind rest k

/-- Store k ↦ v, overwriting any previous binding. -/
def assocSet (l : List (PyStr × Value)) (k : PyStr) (v : Value) :
    List (PyStr × Value) :=
  (k, v) :: l.filter (fun kv => !(kv.1 = k : Bool))

/-- State of the two cache tiers: redis is none when the fast-tier
client was never connected (CacheService.__init__ fallback). -/
structure CacheState where
  redis : Option (List (PyStr × Value))
  disk : List (PyStr × Value)

/-- The fast-tier leg of CacheService.get: cached = redis.get(key);
if cached: return json.loads(cached) — with the raised exception caught
and turned into a fall-through.  The stored string is json.dumps of the
payload, and its truthiness is what "if cached:" tests. -/
def redis_try_get (st : CacheState) (k : PyStr) (rFail : Bool) : Option Value :=
  match st.redis with
  | some entries =>
    match (if rFail then Except.error () else Except.ok (assocFind entries k) :
        Except Unit (Option Value)) with
    | .error _ => none            -- except: logger.warning, fall through
    | .ok none => none
    | .ok (some v) => if (jsonDumps v).isEmpty then none else some v
  | none => none

/-- CacheService.get (cache_service.py lines 62-86).  rFail injects a
fast-tier exception (timeout, unreachable backend), dFail a disk-tier
exception; both are caught and logged by the source. -/
def cacheService_get (st : CacheState) (k : PyStr) (rFail dFail : Bool) :
    Except Unit (Option Value) :=
  -- Try Redis first
  match redis_try_get st k rFail with
  | some v => .ok (some v)
  | none =>
    -- Fallback to disk cache: cached = disk_cache.get(key); if cached: return cached
    match (if dFail then Except.error () else Except.ok (assocFind st.disk k) :
        Except Unit (Option Value)) with
    | .error _ => .ok none          -- except: logger.warning, fall through
    | .ok none => .ok none
    | .ok (some v) => .ok (if truthy v then some v else none)

/-- The durable-tier lookup on its own: the result the service must
deliver once the fast tier has failed. -/
def disk_fallback (st : CacheState) (k : PyStr) (dFail : Bool) : Option Value :=
  if dFail then none
  else
    match assocFind st.disk k with
    | none => none
    | some v => if truthy v then some v else none

/-- CacheService.set (cache_service.py lines 88-117): success starts
false, each tier's try block sets it true on acceptance, and the disk
tier is attempted regardless of the Redis outcome. -/
def cacheService_set (st : CacheState) (k : PyStr) (v : Value)
    (rFail dFail : Bool) : Except Unit (Bool × CacheState) :=
  -- Try Redis first: setex(key, ttl, json.dumps(data))
  let rOut : Bool × Option (List (PyStr × Value)) :=
    match st.redis with
    | some entries =>
      if rFail then (false, some entries)   -- except: logger.warning
      else (true, some (assocSet entries k v))
    | none => (false, none)
  -- Always store in disk cache as backup
  let dOut : Bool × List (PyStr × Value) :=
    if dFail then (false, st.disk)          -- except: logger.warning
    else (true, assocSet st.disk k v)
  .ok (rOut.1 || dOut.1, { redis := rOut.2, disk := dOut.2 })

/-- Truthiness of the optional pattern argument of clear_cache. -/
def patTruthy : Option PyStr → Bool
  | none => false
  | some p => !p.isEmpty

/-- CacheService.clear_cache (cache_service.py lines 119-136): Redis
keys containing the pattern are deleted only when a truthy pattern is
given; the disk tier is cleared only when the pattern is falsy. -/
def clear_cache (pattern : Option PyStr) (st : CacheState) :
    Bool × CacheState :=
  let st1 : CacheState :=
    match st.redis with
    | some entries =>
      if patTruthy pattern then
        let kept := entries.filter (fun kv => !(hasSeq (pattern.getD []) kv.1))
        { st with redis := some kept }
      else st
    | none => st
  let st2 : CacheState :=
    if patTruthy pattern then st1 else { st1 with disk := [] }
  (true, st2)

/-
MD5, as used by hashlib.md5 in CacheService._generate_key.  Machine
words are naturals reduced modulo 2^32.
-/

def md5K : List Nat := [
    3614090360, 3905402710, 606105819, 3250441966,
    4118548399, 1200080426, 2821735955, 4249261313,
    1770035416, 2336552879, 4294925233, 2304563134,
    1804603682, 4254626195, 2792965006, 1236535329,
    4129170786, 3225465664, 643717713, 3921069994,
    3593408605, 38016083, 3634488961, 3889429448,
    568446438, 3275163606, 4107603335, 1163531501,
    2850285829, 4243563512, 1735328473, 2368359562,
    4294588738, 2272392833, 1839030562, 4259657740,
    2763975236, 1272893353, 4139469664, 3200236656,
    681279174, 3936430074, 3572445317, 76029189,
    3654602809, 3873151461, 530742520, 3299628645,
    4096336452, 1126891415, 2878612391, 4237533241,
    1700485571, 2399980690, 4293915773, 2240044497,
    1873313359, 4264355552, 2734768916, 1309151649,
    4149444226, 3174756917, 718787259, 3951481745]

def md5S : List Nat := [
    7, 12, 17, 22, 7, 12, 17, 22, 7, 12, 17, 22, 7, 12, 17, 22,
    5, 9, 14, 20, 5, 9, 14, 20, 5, 9, 14, 20, 5, 9, 14, 20,
    4, 11, 16, 23, 4, 11, 16, 23, 4, 11, 16, 23, 4, 11, 16, 23,
    6, 10, 15, 21, 6, 10, 15, 21, 6, 10, 15, 21, 6, 10, 15, 21]

def rotl32 (x s : Nat) : Nat :=
  ((x <<< s) ||| (x >>> (32 - s))) % 4294967296

def md5Mix (i b c d : Nat) : Nat :=
  if i < 16 then (b &&& c) ||| ((b ^^^ 4294967295) &&& d)
  else if i < 32 then (d &&& b) ||| ((d ^^^ 4294967295) &&& c)
  else if i < 48 then b ^^^ c ^^^ d
  else c ^^^ (b ||| (d ^^^ 4294967295))

def md5MsgIdx (i : Nat) : Nat :=
  if i < 16 then i
  else if i < 32 then (5 * i + 1) % 16
  else if i < 48 then (3 * i + 5) % 16
  else (7 * i) % 16

/-- Little-endian bytes of a 64-byte block as sixteen 32-bit words. -/
def toWords : List Nat → List Nat
  | b0 :: b1 :: b2 :: b3 :: rest =>
    (b0 + 256 * (b1 + 256 * (b2 + 256 * b3))) :: toWords rest
  | _ => []

def md5Round (M : List Nat) (st : Nat × Nat × Nat × Nat) (i : Nat) :
    Nat × Nat × Nat × Nat :=
  let (a, b, c, d) := st
  let f := md5Mix i b c d
  let tmp := (a + f + md5K.getD i 0 + M.getD (md5MsgIdx i) 0) % 4294967296
  let nb := (b + rotl32 tmp (md5S.getD i 0)) % 4294967296
  (d, nb, b, c)

def md5Block (st : Nat × Nat × Nat × Nat) (M : List Nat) :
    Nat × Nat × Nat × Nat :=
  let (a, b, c, d) := (List.range 64).foldl (md5Round M) st
  ((st.1 + a) % 4294967296, (st.2.1 + b) % 4294967296,
    (st.2.2.1 + c) % 4294967296, (st.2.2.2 + d) % 4294967296)

def leBytes : Nat → Nat → List Nat
  | 0, _ => []
  | k + 1, n => (n % 256) :: leBytes k (n / 256)

/-- MD5 padding: a 0x80 byte, zeros to 56 mod 64, then the bit length
as eight little-endian bytes. -/
def padMsg (m : List Nat) : List Nat :=
  m ++ [128] ++ List.replicate ((119 - (m.length % 64)) % 64) 0
    ++ leBytes 8 ((8 * m.length) % 18446744073709551616)

/-- Group the word stream into blocks of sixteen 32-bit words. -/
def toBlocks16 : List Nat → List (List Nat)
  | w0 :: w1 :: w2 :: w3 :: w4 :: w5 :: w6 :: w7 ::
    w8 :: w9 :: w10 :: w11 :: w12 :: w13 :: w14 :: w15 :: rest =>
    [w0, w1, w2, w3, w4, w5, w6, w7, w8, w9, w10, w11, w12, w13, w14, w15]
      :: toBlocks16 rest
  | _ => []

def md5Bytes (m : List Nat) : List Nat :=
  let st := (toBlocks16 (toWords (padMsg m))).foldl md5Block
    (1732584193, 4023233417, 2562383102, 271733878)
  leBytes 4 st.1 ++ leBytes 4 st.2.1 ++ leBytes 4 st.2.2.1 ++ leBytes 4 st.2.2.2

def hexDigitCh (n : Nat) : Char :=
  if n < 10 then digitCh n
  else if n = 10 then 'a' else if n = 11 then 'b' else if n = 12 then 'c'
  else if n = 13 then 'd' else if n = 14 then 'e' else 'f'

def byteHex (b : Nat) : PyStr := [hexDigitCh (b / 16), hexDigitCh (b % 16)]

/-- Lowercase hex digest, as returned by hexdigest(). -/
def md5hex (m : List Nat) : PyStr := (List.map byteHex (md5Bytes m)).flatten

/-- UTF-8 encoding of one character, as Python str.encode(). -/
def utf8Bytes (c : Char) : List Nat :=
  let n := c.toNat
  if n < 128 then [n]
  else if n < 2048 then [192 + n / 64, 128 + n % 64]
  else if n < 65536 then
    [224 + n / 4096, 128 + (n / 64) % 64, 128 + n % 64]
  else
    [240 + n / 262144, 128 + (n / 4096) % 64, 128 + (n / 64) % 64, 128 + n % 64]

def encodeUtf8 (s : PyStr) : List Nat := (s.map utf8Bytes).flatten

/-- RFC 1321 test vector, checking the embedding of hashlib.md5. -/
theorem md5_test_vector :
    md5hex (encodeUtf8 (("abc").toList))
      = ("900150983cd24fb0d6963f7d28e17f72").toList := by decide

/-- Python repr of a string value without special characters, as it
appears inside the f-string rendering of a parameter dict. -/
def pyRepr (s : PyStr) : PyStr := '\x27' :: (s ++ ['\x27'])

/-- Python str() of a dict of string parameters, in insertion order:
this is what the f-string in _generate_key renders ({} when the
parameter map is None or empty). -/
def dictRepr (ps : List (PyStr × PyStr)) : PyStr :=
  match ps with
  | [] => ['\x7b', '\x7d']
  | _ => '\x7b' :: (joinSep ((", ").toList)
      (ps.map (fun kv => pyRepr kv.1 ++ ((": ").toList ++ pyRepr kv.2)))
      ++ ['\x7d'])

/-- CacheService._generate_key (cache_service.py lines 57-60):
key_data = f"{query}_{params or {}}" hashed with MD5 under the fixed
pmo_query_ namespace.  Parameter maps are insertion-ordered pair lists,
as Python dicts are. -/
def generate_key (query : PyStr) (params : List (PyStr × PyStr)) : PyStr :=
  let key_data := query ++ ('_' :: dictRepr params)
  ("pmo_query_").toList ++ md5hex (encodeUtf8 key_data)

/-
Claim theorems.
-/

/-- Recorded state used for the clear-cache analysis: one entry in each
tier. -/
def c3State : CacheState :=
  { redis := some [((("k1").toList), Value.vint 1)],
    disk := [((("k2").toList), Value.vint 2)] }

/-- C3 counterexample: clear with no pattern reports success and empties
the durable tier, yet the entry previously stored in the fast tier is
still present afterwards — the fast tier is not cleared. -/
theorem claim_C3_counterexample :
    (clear_cache none c3State).1 = true ∧
    (clear_cache none c3State).2.redis
      = some [((("k1").toList), Value.vint 1)] ∧
    assocFind ((clear_cache none c3State).2.redis.getD []) (("k1").toList)
      = some (Value.vint 1) ∧
    (clear_cache none c3State).2.disk = [] := by
  refine ⟨rfl, rfl, ?_, rfl⟩
  simp [clear_cache, c3State, patTruthy, assocFind]

/-- C3 amended: clear with no pattern returns true, fully clears the
durable tier and leaves the fast tier untouched; clear with a nonempty
pattern returns true, deletes exactly the fast-tier keys containing the
pattern and leaves the durable tier untouched. -/
theorem claim_C3_amended (st : CacheState) (c : Char) (p : PyStr) :
    clear_cache none st = (true, { redis := st.redis, disk := [] }) ∧
    clear_cache (some (c :: p)) st
      = (true,
          { redis := (match st.redis with
              | some entries =>
                some (entries.filter (fun kv => !(hasSeq (c :: p) kv.1)))
              | none => none),
            disk := st.disk }) := by
  obtain ⟨r, d⟩ := st
  constructor
  · cases r <;> simp [clear_cache, patTruthy]
  · cases r <;> simp [clear_cache, patTruthy]

/-- C4 counterexample: a Portfolio request with supplied limit 100 is
shaped with the raw value inlined — the statement ends in
LIMIT 100 OFFSET 0, and 100 exceeds the claimed cap of 50. -/
theorem claim_C4_counterexample :
    hasSeq ((" LIMIT 100 ").toList)
      (portfolio_hierarchy_query (("SELECT * FROM t").toList) 1 100) = true ∧
    endsSeq ((" LIMIT 100 OFFSET 0").toList)
      (portfolio_hierarchy_query (("SELECT * FROM t").toList) 1 100) = true ∧
    ¬((100 : Int) ≤ 50) := by
  refine ⟨by decide, by decide, by decide⟩

/-- C4 amended: only the legacy paginated endpoint caps the requested
page size at 50; the per-level endpoints inline the caller-supplied
integer limit into the shaped statement unchanged, with no cap and no
non-negativity check. -/
theorem claim_C4_amended :
    (∀ requested : Int, legacy_page_size requested ≤ 50) ∧
    (∀ (t : PyStr) (page limit : Int), ∃ pre : PyStr,
      portfolio_hierarchy_query t page limit
        = pre ++ ((" LIMIT ").toList
            ++ (intStr limit
            ++ ((" OFFSET ").toList ++ intStr ((page - 1) * limit))))) := by
  constructor
  · intro r
    exact min_le_right r 50
  · intro t page limit
    refine ⟨rstripSemi (pyStrip t) ++ portfolioWhere
      ++ ((" ORDER BY ").toList ++ childIdCol), ?_⟩
    simp [portfolio_hierarchy_query, addPagination, List.append_assoc]

/-- C5 counterexample: a SubProgram request whose hierarchy query
returns zero rows still issues two warehouse calls, and its investment
result is whatever the investment query returned rather than empty. -/
theorem claim_C5_counterexample :
    (run_subprogram (("SELECT * FROM t").toList) (("SELECT * FROM i").toList)
      (("P1").toList) 1 50 [] [⟨("X1").toList⟩]).warehouseCalls = 2 ∧
    ¬((run_subprogram (("SELECT * FROM t").toList) (("SELECT * FROM i").toList)
      (("P1").toList) 1 50 [] [⟨("X1").toList⟩]).warehouseCalls = 1) ∧
    ((run_subprogram (("SELECT * FROM t").toList) (("SELECT * FROM i").toList)
      (("P1").toList) 1 50 [] [⟨("X1").toList⟩]).investment).length = 1 := by
  refine ⟨rfl, by decide, rfl⟩

/-- C5 amended: with zero hierarchy rows the Portfolio and Program
endpoints issue exactly one warehouse call and return an empty
investment result, while the SubProgram and Region endpoints always
issue two warehouse calls. -/
theorem claim_C5_amended (tH tI pid : PyStr) (page limit : Int)
    (invRows : List IRow) :
    (run_portfolio tH tI page limit [] invRows).warehouseCalls = 1 ∧
    (run_portfolio tH tI page limit [] invRows).investment = [] ∧
    (run_program tH tI pid page limit [] invRows).warehouseCalls = 1 ∧
    (run_program tH tI pid page limit [] invRows).investment = [] ∧
    (run_subprogram tH tI pid page limit [] invRows).warehouseCalls = 2 ∧
    (run_region tH tI pid page limit [] invRows).warehouseCalls = 2 := by
  exact ⟨rfl, rfl, rfl, rfl, rfl, rfl⟩

/-- C7: on any fast-tier failure, get returns ok with exactly the
durable tier's answer (its stored truthy value, or absent), and for
every combination of tier failures get returns ok — no exception
escapes to the caller. -/
theorem claim_C7 (st : CacheState) (k : PyStr) (rFail dFail : Bool) :
    cacheService_get st k true dFail = .ok (disk_fallback st k dFail) ∧
    ∃ o : Option Value, cacheService_get st k rFail dFail = .ok o := by
  constructor
  · have hred : redis_try_get st k true = none := by
      cases hr : st.redis <;> simp [redis_try_get, hr]
    unfold cacheService_get disk_fallback
    rw [hred]
    cases hd : dFail
    · simp
      cases hf : assocFind st.disk k <;> simp
    · simp
  · unfold cacheService_get
    cases hstep : redis_try_get st k rFail with
    | some v => exact ⟨some v, rfl⟩
    | none =>
      cases hd : dFail with
      | true => exact ⟨none, rfl⟩
      | false =>
        cases hf : assocFind st.disk k with
        | none => exact ⟨none, by simp⟩
        | some v => exact ⟨if truthy v then some v else none, by simp [hf]⟩

/-- C8: set never raises; it returns true exactly when at least one
tier accepted the write, and a fast-tier failure never prevents the
durable-tier write from landing. -/
theorem claim_C8 (st : CacheState) (k : PyStr) (v : Value)
    (rFail dFail : Bool) :
    (∃ b st', cacheService_set st k v rFail dFail = .ok (b, st') ∧
      (b = true ↔ ((st.redis.isSome = true ∧ rFail = false) ∨ dFail = false))) ∧
    (∃ st', cacheService_set st k v true false = .ok (true, st') ∧
      assocFind st'.disk k = some v) := by
  constructor
  · refine ⟨_, _, rfl, ?_⟩
    cases hr : st.redis <;> cases rFail <;> cases dFail <;>
      simp [cacheService_set, hr]
  · refine ⟨⟨st.redis, assocSet st.disk k v⟩, ?_, ?_⟩
    · obtain ⟨r, d⟩ := st
      cases r <;> simp [cacheService_set]
    · simp [assocSet, assocFind]

/-- State reached after caching the empty list under key "k" with both
tiers healthy. -/
def c10State : CacheState :=
  { redis := some [((("k").toList), Value.vlist [])],
    disk := [((("k").toList), Value.vlist [])] }

/-- C10 counterexample: the empty list is falsy, yet after a healthy
set of [] the subsequent get returns the cached empty list, not absent:
the fast tier tests the serialized string "[]", which is truthy. -/
theorem claim_C10_counterexample :
    truthy (Value.vlist []) = false ∧
    cacheService_set { redis := some [], disk := [] } (("k").toList)
      (Value.vlist []) false false = .ok (true, c10State) ∧
    cacheService_get c10State (("k").toList) false false
      = .ok (some (Value.vlist [])) := by
  refine ⟨rfl, ?_, ?_⟩
  · simp [cacheService_set, c10State, assocSet]
  · simp [cacheService_get, redis_try_get, c10State, assocFind, jsonDumps]

/-- C10 amended: a falsy payload is indistinguishable from a miss only
on the durable tier, whose lookup tests the payload's truthiness; a
fast-tier hit always returns the payload — falsy or not — because the
fast tier tests the truthiness of the serialized string, which is never
empty. -/
theorem claim_C10_amended (k : PyStr) (v : Value)
    (entries : List (PyStr × Value)) :
    cacheService_get { redis := none, disk := [(k, v)] } k false false
      = .ok (if truthy v then some v else none) ∧
    cacheService_get { redis := some ((k, v) :: entries), disk := [] } k
      false false = .ok (some v) := by
  constructor
  · simp [cacheService_get, redis_try_get, assocFind]
  · have hne : (jsonDumps v).isEmpty = false := by
      cases hj : (jsonDumps v).isEmpty with
      | false => rfl
      | true => exact absurd (List.isEmpty_iff.mp hj) (jsonDumps_ne_nil v)
    simp [cacheService_get, redis_try_get, assocFind, hne]

/-- C2 counterexample: two parameter maps holding the same key-value
pairs in different insertion orders derive different cache keys — the
serialization is the dict's insertion-ordered repr, not a key-sorted
form. -/
theorem claim_C2_counterexample :
    ([((("a").toList : PyStr), (("1").toList : PyStr)),
        ((("b").toList), (("2").toList))].Perm
      [((("b").toList), (("2").toList)),
        ((("a").toList), (("1").toList))]) ∧
    generate_key (("q").toList)
        [((("a").toList), (("1").toList)), ((("b").toList), (("2").toList))]
      = ("pmo_query_e9b0975fd3eb192da9b43e67c91a6d9b").toList ∧
    generate_key (("q").toList)
        [((("b").toList), (("2").toList)), ((("a").toList), (("1").toList))]
      = ("pmo_query_837c97190d3f1ccc755dea4a52b95832").toList ∧
    generate_key (("q").toList)
        [((("a").toList), (("1").toList)), ((("b").toList), (("2").toList))]
      ≠ generate_key (("q").toList)
        [((("b").toList), (("2").toList)), ((("a").toList), (("1").toList))] := by
  refine ⟨?_, by decide, by decide, by decide⟩
  exact List.Perm.swap _ _ _

/-- C2 amended: key derivation is deterministic and depends only on the
query text and the insertion-ordered rendering of the parameter map; it
is not order-independent, since the parameters are serialized in
insertion order rather than sorted order. -/
theorem claim_C2_amended (q : PyStr) (ps₁ ps₂ : List (PyStr × PyStr))
    (h : dictRepr ps₁ = dictRepr ps₂) :
    generate_key q ps₁ = generate_key q ps₂ := by
  unfold generate_key
  rw [h]

theorem claim_C2_amended_witness :
    generate_key (("q").toList) [((("a").toList), (("1").toList))]
      = generate_key (("q").toList) [((("a").toList), (("1").toList))] :=
  claim_C2_amended _ _ _ (by decide)

/-- C9: every Portfolio response carries the envelope computed from the
hierarchy rows — page and limit echoed, total_items the row count,
has_more exactly when the row count equals the limit — with the offset
(page-1)*limit inlined at the end of the shaped statement; in the
spec scenario (Program level, template without WHERE, page 2, limit 10)
the shaped statement ends in LIMIT 10 OFFSET 10 and references the
bound portfolio_id parameter in an inserted WHERE. -/
theorem claim_C9 (tH tI : PyStr) (page limit : Int)
    (hierRows : List HRow) (invRows : List IRow) :
    ((run_portfolio tH tI page limit hierRows invRows).pagination.page = page ∧
     (run_portfolio tH tI page limit hierRows invRows).pagination.limit = limit ∧
     (run_portfolio tH tI page limit hierRows invRows).pagination.total_items
        = hierRows.length ∧
     (run_portfolio tH tI page limit hierRows invRows).pagination.has_more
        = ((hierRows.length : Int) == limit)) ∧
    (∃ pre : PyStr,
      (run_portfolio tH tI page limit hierRows invRows).hierarchySQL
        = pre ++ ((" OFFSET ").toList ++ intStr ((page - 1) * limit))) ∧
    endsSeq ((" LIMIT 10 OFFSET 10").toList)
      (program_hierarchy_query (("SELECT * FROM t").toList) 2 10) = true ∧
    hasSeq ((" WHERE ").toList)
      (program_hierarchy_query (("SELECT * FROM t").toList) 2 10) = true ∧
    hasSeq (("%(portfolio_id)s").toList)
      (program_hierarchy_query (("SELECT * FROM t").toList) 2 10) = true := by
  refine ⟨?_, ?_, by decide, by decide, by decide⟩
  · cases h : hierRows.isEmpty <;>
      simp [run_portfolio, h, mkPagination]
  · refine ⟨rstripSemi (pyStrip tH) ++ portfolioWhere
      ++ ((" ORDER BY ").toList ++ (childIdCol
        ++ ((" LIMIT ").toList ++ intStr limit))), ?_⟩
    cases h : hierRows.isEmpty <;>
      simp [run_portfolio, h, portfolio_hierarchy_query, addPagination,
        List.append_assoc]

/-- Merging the pagination constants around the order column. -/
theorem orderby_merge (X : PyStr) :
    (" ORDER BY ").toList ++ (childIdCol ++ ((" LIMIT ").toList ++ X))
      = (" ORDER BY CHILD_ID LIMIT ").toList ++ X := by
  simp only [← List.append_assoc]
  congr 1

/-- The shaped Program hierarchy statement, decomposed into its five
building blocks. -/
theorem program_query_decomp (t : PyStr) (page limit : Int) :
    program_hierarchy_query t page limit
      = rstripSemi (pyStrip t)
        ++ (programWhere
        ++ ((" ORDER BY CHILD_ID LIMIT ").toList
        ++ (intStr limit
        ++ ((" OFFSET ").toList ++ intStr ((page - 1) * limit))))) := by
  simp only [program_hierarchy_query, addPagination]
  simp only [List.append_assoc]
  rw [orderby_merge]

/-- The example identifier of the claim. -/
def ptf1 : PyStr := ("PTF1").toList

/-- The identifier text PTF1 cannot appear in the shaped Program
statement unless it already appears in the template: the fixed filter,
ordering and pagination text never contain it, the inlined numbers are
all digits, and no occurrence can straddle a border because each border
either starts with a space or a digit (PTF1 has neither inside) or
would need P, PT or PTF as the ending of a fixed block that ends with a
space. -/
theorem ptf1_not_in_program_query (t : PyStr) (page limit : Int)
    (h : hasSeq ptf1 t = false) :
    hasSeq ptf1 (program_hierarchy_query t page limit) = false := by
  cases hq : hasSeq ptf1 (program_hierarchy_query t page limit) with
  | false => rfl
  | true =>
    exfalso
    rw [program_query_decomp] at hq
    have hPlen : ptf1.length = 4 := rfl
    -- Split 1: template part / rest
    rcases hasSeq_append_split hq with h1 | h1 | ⟨i, hi0, hil, _, hs⟩
    · exact absurd (hasSeq_of_hasSeq_pyStrip (hasSeq_of_hasSeq_rstripSemi h1))
        (by simp [h])
    swap
    · rw [hPlen] at hil
      interval_cases i <;>
        (rw [startsSeq_append_of_le _ (by decide)] at hs;
          exact absurd hs (by decide))
    -- Split 2: WHERE filter / rest
    rcases hasSeq_append_split h1 with h2 | h2 | ⟨i, hi0, hil, _, hs⟩
    · exact absurd h2 (by decide)
    swap
    · rw [hPlen] at hil
      interval_cases i <;>
        (rw [startsSeq_append_of_le _ (by decide)] at hs;
          exact absurd hs (by decide))
    -- Split 3: ORDER BY ... LIMIT constant / rest
    rcases hasSeq_append_split h2 with h3 | h3 | ⟨i, hi0, hil, he, _⟩
    · exact absurd h3 (by decide)
    swap
    · rw [hPlen] at hil
      interval_cases i <;> exact absurd he (by decide)
    -- Split 4: inlined limit digits / rest
    rcases hasSeq_append_split h3 with h4 | h4 | ⟨i, hi0, hil, _, hs⟩
    · have : 'P' ∈ intStr limit := mem_of_hasSeq h4 (by decide)
      exact absurd (mem_intStr _ this) (by decide)
    swap
    · rw [hPlen] at hil
      interval_cases i <;>
        (rw [startsSeq_append_of_le _ (by decide)] at hs;
          exact absurd hs (by decide))
    -- Split 5: OFFSET constant / inlined offset digits
    rcases hasSeq_append_split h4 with h5 | h5 | ⟨i, hi0, hil, he, _⟩
    · exact absurd h5 (by decide)
    · have : 'P' ∈ intStr ((page - 1) * limit) := mem_of_hasSeq h5 (by decide)
      exact absurd (mem_intStr _ this) (by decide)
    · rw [hPlen] at hil
      interval_cases i <;> exact absurd he (by decide)

/-- C1: the shaped Program hierarchy statement is one and the same
string for any two portfolio identifiers, the identifier is passed only
as the bound parameter named portfolio_id, and the identifier text PTF1
never appears in the generated SQL (given, as for the real templates,
that the template itself does not contain it). -/
theorem claim_C1 (tH tI pid₁ pid₂ pid : PyStr) (page limit : Int)
    (hierRows : List HRow) (invRows : List IRow)
    (h : hasSeq ptf1 tH = false) :
    (run_program tH tI pid₁ page limit hierRows invRows).hierarchySQL
      = (run_program tH tI pid₂ page limit hierRows invRows).hierarchySQL ∧
    (run_program tH tI pid page limit hierRows invRows).hierarchyParams
      = [((("portfolio_id").toList), pid)] ∧
    hasSeq ptf1
      (run_program tH tI pid page limit hierRows invRows).hierarchySQL
      = false := by
  have hsql : ∀ q : PyStr,
      (run_program tH tI q page limit hierRows invRows).hierarchySQL
        = program_hierarchy_query tH page limit := by
    intro q
    cases h2 : (hierRows.map (fun r => r.CHILD_ID)).isEmpty <;>
      simp [run_program, h2]
  have hparams : ∀ q : PyStr,
      (run_program tH tI q page limit hierRows invRows).hierarchyParams
        = [((("portfolio_id").toList), q)] := by
    intro q
    cases h2 : (hierRows.map (fun r => r.CHILD_ID)).isEmpty <;>
      simp [run_program, h2]
  refine ⟨(hsql pid₁).trans (hsql pid₂).symm, hparams pid, ?_⟩
  rw [hsql pid]
  exact ptf1_not_in_program_query tH page limit h

theorem claim_C1_witness :
    hasSeq ptf1
      (run_program (("SELECT * FROM t").toList) (("SELECT * FROM i").toList)
        ptf1 1 50 [] []).hierarchySQL = false :=
  (claim_C1 (("SELECT * FROM t").toList) (("SELECT * FROM i").toList)
    ptf1 ptf1 ptf1 1 50 [] [] (by decide)).2.2

theorem startsSeq_pyUpper_intStr_bare_false {q : PyStr} {c : Char} {n : Int}
    (hq : q = c :: q.tail) (hc : c ∉ intChars) :
    startsSeq q (pyUpper (intStr n)) = false := by
  rcases pyUpper_intStr_cons n with ⟨d, l, hdl, hd⟩
  rw [hq, hdl]
  simp only [startsSeq]
  cases hcd : c == d with
  | false => simp
  | true =>
    have : c = d := by simpa using hcd
    exact absurd (this ▸ hd) hc

/-- Core counting fact behind the WHERE/AND discipline: appending a
level clause holding exactly one WHERE and then ordering, limit and
offset to a query whose uppercase form holds no WHERE yields a
statement whose uppercase form holds exactly one WHERE. -/
theorem countWH_shaped (clause q : PyStr) (page limit : Int)
    (h0 : hasSeq whToken (pyUpper q) = false)
    (hc1 : countSeq whToken (pyUpper clause) = 1)
    (hc2 : ∀ i, 0 < i → i < 5 →
      startsSeq (whToken.drop i) (pyUpper clause) = false)
    (hlen : 4 ≤ clause.length) :
    countSeq whToken
      (pyUpper (addPagination childIdCol (q ++ clause) page limit)) = 1 := by
  have hW : whToken ≠ [] := by decide
  have hWlen : whToken.length = 5 := rfl
  have hdecomp : pyUpper (addPagination childIdCol (q ++ clause) page limit)
      = pyUpper q ++ (pyUpper clause
        ++ (pyUpper ((" ORDER BY CHILD_ID LIMIT ").toList)
        ++ (pyUpper (intStr limit)
        ++ (pyUpper ((" OFFSET ").toList)
        ++ pyUpper (intStr ((page - 1) * limit)))))) := by
    simp only [addPagination]
    simp only [List.append_assoc]
    rw [orderby_merge]
    simp [pyUpper, List.map_append]
  rw [hdecomp]
  have hdig : ∀ (n : Int) (X : PyStr), ∀ i, 0 < i → i < whToken.length →
      startsSeq (whToken.drop i) (pyUpper (intStr n) ++ X) = false := by
    intro n X i h1 h5
    rw [hWlen] at h5
    interval_cases i
    · exact startsSeq_pyUpper_intStr_head_false (c := 'H') (by decide)
        (by decide) X
    · exact startsSeq_pyUpper_intStr_head_false (c := 'E') (by decide)
        (by decide) X
    · exact startsSeq_pyUpper_intStr_head_false (c := 'R') (by decide)
        (by decide) X
    · exact startsSeq_pyUpper_intStr_head_false (c := 'E') (by decide)
        (by decide) X
  have hdig2 : ∀ n : Int, ∀ i, 0 < i → i < whToken.length →
      startsSeq (whToken.drop i) (pyUpper (intStr n)) = false := by
    intro n i h1 h5
    rw [hWlen] at h5
    interval_cases i
    · exact startsSeq_pyUpper_intStr_bare_false (c := 'H') (by decide) (by decide)
    · exact startsSeq_pyUpper_intStr_bare_false (c := 'E') (by decide) (by decide)
    · exact startsSeq_pyUpper_intStr_bare_false (c := 'R') (by decide) (by decide)
    · exact startsSeq_pyUpper_intStr_bare_false (c := 'E') (by decide) (by decide)
  have hns1 : ∀ i, 0 < i → i < whToken.length →
      startsSeq (whToken.drop i)
        (pyUpper clause
          ++ (pyUpper ((" ORDER BY CHILD_ID LIMIT ").toList)
          ++ (pyUpper (intStr limit)
          ++ (pyUpper ((" OFFSET ").toList)
          ++ pyUpper (intStr ((page - 1) * limit)))))) = false := by
    intro i h1 h5
    rw [startsSeq_append_of_le]
    · exact hc2 i h1 (by rw [hWlen] at h5; exact h5)
    · simp only [List.length_drop, hWlen, pyUpper, List.length_map]
      omega
  have hns2 : ∀ i, 0 < i → i < whToken.length →
      startsSeq (whToken.drop i)
        (pyUpper ((" ORDER BY CHILD_ID LIMIT ").toList)
          ++ (pyUpper (intStr limit)
          ++ (pyUpper ((" OFFSET ").toList)
          ++ pyUpper (intStr ((page - 1) * limit))))) = false := by
    intro i h1 h5
    rw [startsSeq_append_of_le]
    · rw [hWlen] at h5
      interval_cases i <;> decide
    · have hle4 : (whToken.drop i).length ≤ 4 := by
        simp only [List.length_drop, hWlen]
        omega
      calc (whToken.drop i).length ≤ 4 := hle4
        _ ≤ (pyUpper ((" ORDER BY CHILD_ID LIMIT ").toList)).length := by decide
  have hns3 : ∀ i, 0 < i → i < whToken.length →
      startsSeq (whToken.drop i)
        (pyUpper (intStr limit)
          ++ (pyUpper ((" OFFSET ").toList)
          ++ pyUpper (intStr ((page - 1) * limit)))) = false :=
    fun i h1 h5 => hdig limit _ i h1 h5
  have hns4 : ∀ i, 0 < i → i < whToken.length →
      startsSeq (whToken.drop i)
        (pyUpper ((" OFFSET ").toList)
          ++ pyUpper (intStr ((page - 1) * limit))) = false := by
    intro i h1 h5
    rw [startsSeq_append_of_le]
    · rw [hWlen] at h5
      interval_cases i <;> decide
    · have hle4 : (whToken.drop i).length ≤ 4 := by
        simp only [List.length_drop, hWlen]
        omega
      calc (whToken.drop i).length ≤ 4 := hle4
        _ ≤ (pyUpper ((" OFFSET ").toList)).length := by decide
  have hns5 : ∀ i, 0 < i → i < whToken.length →
      startsSeq (whToken.drop i)
        (pyUpper (intStr ((page - 1) * limit))) = false :=
    fun i h1 h5 => hdig2 ((page - 1) * limit) i h1 h5
  rw [countSeq_append hW hns1, countSeq_append hW hns2,
    countSeq_append hW hns3, countSeq_append hW hns4,
    countSeq_append hW hns5]
  have c0 : countSeq whToken (pyUpper q) = 0 := countSeq_eq_zero h0
  have cdig : ∀ n : Int, countSeq whToken (pyUpper (intStr n)) = 0 := by
    intro n
    apply countSeq_eq_zero
    cases hh : hasSeq whToken (pyUpper (intStr n)) with
    | false => rfl
    | true =>
      exact absurd (mem_pyUpper_intStr _ (mem_of_hasSeq (c := 'W') hh (by decide)))
        (by decide)
  have cp : countSeq whToken (pyUpper ((" ORDER BY CHILD_ID LIMIT ").toList))
      = 0 := by decide
  have co : countSeq whToken (pyUpper ((" OFFSET ").toList)) = 0 := by decide
  rw [c0, hc1, cp, cdig limit, co, cdig ((page - 1) * limit)]

/-- An occurrence in the uppercased stripped template is an occurrence
in the uppercased template: stripping only removes outer layers. -/
theorem hasSeq_pyUpper_strip {p t : PyStr}
    (h : hasSeq p (pyUpper (rstripSemi (pyStrip t))) = true) :
    hasSeq p (pyUpper t) = true := by
  obtain ⟨z₁, hz₁⟩ := rstripSemi_decomp (pyStrip t)
  obtain ⟨x, z, hxz⟩ := pyStrip_decomp t
  rw [hxz, hz₁]
  simp only [pyUpper, List.map_append]
  exact hasSeq_append_right _
    (hasSeq_append_left _ (hasSeq_append_left _ h))

set_option maxRecDepth 4000 in
/-- C6 counterexample: at the Program level the filter is appended with
WHERE unconditionally, so a template that already contains a WHERE
yields a statement whose uppercase form contains the WHERE token twice,
not exactly once. -/
theorem claim_C6_counterexample :
    countSeq whToken
      (pyUpper (program_hierarchy_query
        (("SELECT * FROM t WHERE x = 1").toList) 1 50)) = 2 ∧
    ¬(countSeq whToken
      (pyUpper (program_hierarchy_query
        (("SELECT * FROM t WHERE x = 1").toList) 1 50)) = 1) := by
  refine ⟨by decide, by decide⟩

/-- C6 amended: SubProgram and Region introduce the filter with WHERE
when the template contains no WHERE (case-insensitively) and append it
with AND when it does, and Program appends its filter with WHERE
unconditionally; hence the shaped hierarchy statement contains exactly
one WHERE whenever the template contains none, but a Program template
already containing WHERE yields two. -/
theorem claim_C6_amended (t : PyStr) (page limit : Int) :
    (hasSeq whToken (pyUpper t) = false →
      countSeq whToken
        (pyUpper (subprogram_hierarchy_query t page limit)) = 1 ∧
      countSeq whToken (pyUpper (region_hierarchy_query t page limit)) = 1 ∧
      countSeq whToken (pyUpper (program_hierarchy_query t page limit)) = 1) ∧
    (hasSeq whToken (pyUpper t) = true →
      subprogram_hierarchy_query t page limit
        = addPagination childIdCol (t ++ subprogramAnd) page limit ∧
      region_hierarchy_query t page limit
        = addPagination childIdCol (t ++ regionAnd) page limit) := by
  constructor
  · intro h0
    refine ⟨?_, ?_, ?_⟩
    · rw [show subprogram_hierarchy_query t page limit
          = addPagination childIdCol (t ++ subprogramWhere) page limit by
        simp [subprogram_hierarchy_query, h0]]
      exact countWH_shaped subprogramWhere t page limit h0 (by decide)
        (fun i h1 h5 => by interval_cases i <;> decide) (by decide)
    · rw [show region_hierarchy_query t page limit
          = addPagination childIdCol (t ++ regionWhere) page limit by
        simp [region_hierarchy_query, h0]]
      exact countWH_shaped regionWhere t page limit h0 (by decide)
        (fun i h1 h5 => by interval_cases i <;> decide) (by decide)
    · have h0' : hasSeq whToken (pyUpper (rstripSemi (pyStrip t))) = false := by
        cases hh : hasSeq whToken (pyUpper (rstripSemi (pyStrip t))) with
        | false => rfl
        | true => exact absurd (hasSeq_pyUpper_strip hh) (by simp [h0])
      rw [show program_hierarchy_query t page limit
          = addPagination childIdCol
              (rstripSemi (pyStrip t) ++ programWhere) page limit from rfl]
      exact countWH_shaped programWhere (rstripSemi (pyStrip t)) page limit h0'
        (by decide) (fun i h1 h5 => by interval_cases i <;> decide) (by decide)
  · intro h1
    exact ⟨by simp [subprogram_hierarchy_query, h1],
      by simp [region_hierarchy_query, h1]⟩

theorem claim_C6_amended_witness :
    countSeq whToken
      (pyUpper (subprogram_hierarchy_query (("SELECT * FROM t").toList) 1 50))
      = 1 ∧
    countSeq whToken
      (pyUpper (program_hierarchy_query (("SELECT * FROM t").toList) 1 50))
      = 1 ∧
    subprogram_hierarchy_query (("SELECT * FROM t WHERE x = 1").toList) 1 50
      = addPagination childIdCol
          ((("SELECT * FROM t WHERE x = 1").toList) ++ subprogramAnd) 1 50 := by
  refine ⟨?_, ?_, ?_⟩
  · exact ((claim_C6_amended (("SELECT * FROM t").toList) 1 50).1 (by decide)).1
  · exact ((claim_C6_amended (("SELECT * FROM t").toList) 1 50).1
      (by decide)).2.2
  · exact ((claim_C6_amended (("SELECT * FROM t WHERE x = 1").toList) 1 50).2
      (by decide)).1
